import Mathlib

/-!
Shallow embedding of the call-session orchestration core of the
whatsapp-hubspot-calling-integration backend:

* `WebRTCService` (backend/src/services/webrtcService.js): the in-process
  session map, the Redis write-through mirror, and the session lifecycle
  operations (`createSession`, `joinSession`, `leaveSession`,
  `cleanupExpiredSessions`) plus signaling helpers (`createOffer`,
  `createAnswer`, `handleIceCandidate`).
* `SocketHandler` (backend/src/socket/socketHandler.js): the real-time
  relay handlers for `webrtc:offer` / `webrtc:answer` /
  `webrtc:ice-candidate` / `session:join` / `session:leave`.
* `TwilioService` (backend/src/services/twilioService.js):
  `createConferenceCall`, `addToConference`, `generateConferenceTwiML`.

JS exceptions are modelled with `Except String`; since a JS exception does
not roll back mutations already applied to `this.activeSessions`, every
stateful operation returns the outcome together with the post-state.
Calls out to Redis and to the Twilio gateway are modelled by explicit
outcome parameters (`storeOk`, `getOk`, `delOk`, leg outcomes): the callee
either succeeds or fails, exactly as the corresponding `await` either
resolves or rejects in the source.  Timestamps are `Nat` milliseconds
standing for the ISO strings produced by `new Date().toISOString()`.
-/

/-- One entry of a session's `participants` array
(webrtcService.js, `joinSession`). -/
structure Participant where
  userId : String
  socketId : String
  joinedAt : Nat
  status : String
deriving DecidableEq, Repr

/-- A WebRTC session record as built by `createSession`
(webrtcService.js lines 30-38).  `iceConfiguration` keeps just the list of
STUN urls. -/
structure Session where
  id : String
  userId : String
  type : String
  status : String
  createdAt : Nat
  participants : List Participant
  iceConfiguration : List String
deriving DecidableEq, Repr

/-! ### JS `Map` and Redis-hash semantics over association lists

`mapGet` returns the first binding of a key, `mapSet` replaces the binding
in place when the key is present (preserving iteration order, as JS `Map`
does) and appends otherwise, `mapDelete` removes the key's bindings. -/

def mapGet {α : Type} : List (String × α) → String → Option α
  | [], _ => none
  | (k', v) :: rest, k => if k' = k then some v else mapGet rest k

def mapSet {α : Type} : List (String × α) → String → α → List (String × α)
  | [], k, v => [(k, v)]
  | (k', v') :: rest, k, v =>
      if k' = k then (k, v) :: rest else (k', v') :: mapSet rest k v

def mapDelete {α : Type} : List (String × α) → String → List (String × α)
  | [], _ => []
  | (k', v) :: rest, k =>
      if k' = k then mapDelete rest k else (k', v) :: mapDelete rest k

/-- Key uniqueness of an association list, as JS `Map` guarantees. -/
abbrev keysNodup {α : Type} (m : List (String × α)) : Prop :=
  (m.map Prod.fst).Nodup

namespace WebRTCService

/-- Combined state of one `WebRTCService` instance and its Redis mirror:
`activeSessions` is the in-process `Map`, `redis` the key-value store the
write-through targets. -/
structure ServiceState where
  activeSessions : List (String × Session)
  redis : List (String × Session)
deriving DecidableEq, Repr

/-- The key namespace used for sessions in Redis
(webrtcService.js, `storeSession` / `getSession` / `deleteSession`). -/
def redisKey (sessionId : String) : String :=
  "webrtc:session:" ++ sessionId

/-- `storeSession` (webrtcService.js lines 251-260): `redis.setEx`, and a
failure of the Redis call is logged and **rethrown**.  `ok` is the outcome
of the Redis call. -/
def storeSession : Bool → String → Session → List (String × Session) →
    Except String (List (String × Session))
  | true, sessionId, session, redis => .ok (mapSet redis (redisKey sessionId) session)
  | false, _, _, _ => .error "Failed to store session in Redis"

/-- `getSession` (webrtcService.js lines 265-275): `redis.get`; a failure
of the Redis call is swallowed and `null` is returned. -/
def getSession : Bool → String → List (String × Session) → Option Session
  | true, sessionId, redis => mapGet redis (redisKey sessionId)
  | false, _, _ => none

/-- `deleteSession` (webrtcService.js lines 280-288): `redis.del`; a
failure of the Redis call is swallowed (the entry then survives). -/
def deleteSession : Bool → String → List (String × Session) →
    List (String × Session)
  | true, sessionId, redis => mapDelete redis (redisKey sessionId)
  | false, _, redis => redis

/-- `createSession` (webrtcService.js lines 27-51): build the session,
put it into the in-process map, then write through to Redis.  If the
write-through fails the already-performed map insertion stays and the
error propagates (the `catch` rethrows). -/
def createSession (st : ServiceState) (sessionId userId type : String)
    (now : Nat) (ice : List String) (storeOk : Bool) :
    Except String Session × ServiceState :=
  let session : Session :=
    { id := sessionId, userId := userId, type := type, status := "created",
      createdAt := now, participants := [], iceConfiguration := ice }
  let active := mapSet st.activeSessions sessionId session
  match storeSession storeOk sessionId session st.redis with
  | .ok r => (.ok session, { st with activeSessions := active, redis := r })
  | .error e => (.error e, { st with activeSessions := active })

/-- `joinSession` (webrtcService.js lines 56-87): look the session up in
the map, on a miss try Redis (lazy recovery), push a new participant entry
unconditionally, set status to `active`, write through.  On write-through
failure the map mutation stays and the error propagates. -/
def joinSession (st : ServiceState) (sessionId userId socketId : String)
    (now : Nat) (getOk storeOk : Bool) :
    Except String Session × ServiceState :=
  let loaded : Option Session :=
    match mapGet st.activeSessions sessionId with
    | some s => some s
    | none => getSession getOk sessionId st.redis
  match loaded with
  | none => (.error "Session not found", st)
  | some s =>
      let participant : Participant :=
        { userId := userId, socketId := socketId, joinedAt := now,
          status := "connected" }
      let s' := { s with participants := s.participants ++ [participant],
                         status := "active" }
      let active := mapSet st.activeSessions sessionId s'
      match storeSession storeOk sessionId s' st.redis with
      | .ok r => (.ok s', { st with activeSessions := active, redis := r })
      | .error e => (.error e, { st with activeSessions := active })

/-- `leaveSession` (webrtcService.js lines 92-118): only the in-process
map is consulted; the matching participants are filtered out; if none
remain the session is marked `ended` and removed from both tiers (the
Redis delete swallowing its own failures), otherwise the shrunk session is
written through and returned. -/
def leaveSession (st : ServiceState) (sessionId userId : String)
    (storeOk delOk : Bool) : Except String Session × ServiceState :=
  match mapGet st.activeSessions sessionId with
  | none => (.error "Session not found", st)
  | some s =>
      let remaining := s.participants.filter (fun p => p.userId != userId)
      if remaining.length = 0 then
        let s' := { s with participants := remaining, status := "ended" }
        (.ok s',
         { st with activeSessions := mapDelete st.activeSessions sessionId,
                   redis := deleteSession delOk sessionId st.redis })
      else
        let s' := { s with participants := remaining }
        let active := mapSet st.activeSessions sessionId s'
        match storeSession storeOk sessionId s' st.redis with
        | .ok r => (.ok s', { st with activeSessions := active, redis := r })
        | .error e => (.error e, { st with activeSessions := active })

/-- `cleanupExpiredSessions` (webrtcService.js lines 293-309): scan the
in-process map, delete every session whose `createdAt` is strictly older
than one hour (3600000 ms) from the map and from Redis.  `delOk` gives the
outcome of each Redis delete (failures are swallowed). -/
def cleanupExpiredSessions (st : ServiceState) (now : Nat)
    (delOk : String → Bool) : ServiceState :=
  let oneHourAgo := now - 3600000
  let expired := st.activeSessions.filter (fun p => decide (p.2.createdAt < oneHourAgo))
  { st with
    activeSessions :=
      st.activeSessions.filter (fun p => !(decide (p.2.createdAt < oneHourAgo))),
    redis := expired.foldl (fun r p => deleteSession (delOk p.1) p.1 r) st.redis }

/-- A signaling payload built by `createOffer` / `createAnswer`
(webrtcService.js lines 160-166 and 186-192). -/
structure OfferAnswer where
  sessionId : String
  userId : String
  type : String
  sdp : String
  timestamp : Nat
deriving DecidableEq, Repr

/-- The payload built by `handleIceCandidate`
(webrtcService.js lines 212-220). -/
structure IcePayload where
  sessionId : String
  userId : String
  type : String
  candidate : String
  sdpMLineIndex : Nat
  sdpMid : String
  timestamp : Nat
deriving DecidableEq, Repr

/-- `createOffer` (webrtcService.js lines 153-174): requires only that the
session exists in the in-process map; the sender's membership is not
checked. -/
def createOffer (st : ServiceState) (sessionId userId sdp : String)
    (now : Nat) : Except String OfferAnswer :=
  match mapGet st.activeSessions sessionId with
  | none => .error "Session not found"
  | some _ =>
      .ok { sessionId := sessionId, userId := userId, type := "offer",
            sdp := sdp, timestamp := now }

/-- `createAnswer` (webrtcService.js lines 179-200): same shape as
`createOffer`. -/
def createAnswer (st : ServiceState) (sessionId userId sdp : String)
    (now : Nat) : Except String OfferAnswer :=
  match mapGet st.activeSessions sessionId with
  | none => .error "Session not found"
  | some _ =>
      .ok { sessionId := sessionId, userId := userId, type := "answer",
            sdp := sdp, timestamp := now }

/-- `handleIceCandidate` (webrtcService.js lines 205-228). -/
def handleIceCandidate (st : ServiceState) (sessionId userId : String)
    (candidate : String) (sdpMLineIndex : Nat) (sdpMid : String)
    (now : Nat) : Except String IcePayload :=
  match mapGet st.activeSessions sessionId with
  | none => .error "Session not found"
  | some _ =>
      .ok { sessionId := sessionId, userId := userId, type := "ice-candidate",
            candidate := candidate, sdpMLineIndex := sdpMLineIndex,
            sdpMid := sdpMid, timestamp := now }

/-- The state a fresh `WebRTCService` starts from (empty map, and we pair
it with an empty Redis). -/
def initState : ServiceState := { activeSessions := [], redis := [] }

end WebRTCService

namespace SocketHandler

open WebRTCService

/-- What a handler sends on a socket event.  `err` models the
`{ error: ... }` objects the handlers emit. -/
inductive Payload where
  | err (msg : String)
  | offerAnswer (p : OfferAnswer)
  | ice (p : IcePayload)
  | joined (userId sessionId : String) (timestamp : Nat)
  | left (userId sessionId : String) (timestamp : Nat)
  | sessionJoined (s : Session)
deriving DecidableEq, Repr

/-- One emission performed by a handler: `socket.emit` back to the sender,
or `socket.to(room).emit` to every other member of a room. -/
inductive Emission where
  | toSender (event : String) (payload : Payload)
  | toRoom (room : String) (event : String) (payload : Payload)
deriving DecidableEq, Repr

/-- The per-connection context: `socket.id` and the `socket.userId` bound
by a successful `authenticate` (none while unauthenticated). -/
structure SocketCtx where
  id : String
  userId : Option String
deriving DecidableEq, Repr

/-- Relay-side state: the service state plus the room membership relation
(`socket.join` / `socket.leave`), as (socketId, room) pairs. -/
structure RelayState where
  svc : ServiceState
  rooms : List (String × String)
deriving DecidableEq, Repr

def joinRoom (rooms : List (String × String)) (socketId room : String) :
    List (String × String) :=
  if (socketId, room) ∈ rooms then rooms else rooms ++ [(socketId, room)]

def leaveRoom (rooms : List (String × String)) (socketId room : String) :
    List (String × String) :=
  rooms.filter (fun p => p != (socketId, room))

/-- The `webrtc:offer` handler (socketHandler.js lines 369-388):
unauthenticated senders get `error`; otherwise `createOffer` is called and
its payload is forwarded to the session room (everyone in the room except
the sender); a `createOffer` failure yields `webrtc:error` to the
sender. -/
def handleWebrtcOffer (rs : RelayState) (sock : SocketCtx)
    (sessionId sdp : String) (now : Nat) : List Emission × RelayState :=
  match sock.userId with
  | none => ([.toSender "error" (.err "Not authenticated")], rs)
  | some uid =>
      match createOffer rs.svc sessionId uid sdp now with
      | .error _ => ([.toSender "webrtc:error" (.err "Failed to send offer")], rs)
      | .ok offerData =>
          ([.toRoom ("session:" ++ sessionId) "webrtc:offer" (.offerAnswer offerData)], rs)

/-- The `webrtc:answer` handler (socketHandler.js lines 390-409). -/
def handleWebrtcAnswer (rs : RelayState) (sock : SocketCtx)
    (sessionId sdp : String) (now : Nat) : List Emission × RelayState :=
  match sock.userId with
  | none => ([.toSender "error" (.err "Not authenticated")], rs)
  | some uid =>
      match createAnswer rs.svc sessionId uid sdp now with
      | .error _ => ([.toSender "webrtc:error" (.err "Failed to send answer")], rs)
      | .ok answerData =>
          ([.toRoom ("session:" ++ sessionId) "webrtc:answer" (.offerAnswer answerData)], rs)

/-- The `webrtc:ice-candidate` handler (socketHandler.js lines 411-430). -/
def handleWebrtcIceCandidate (rs : RelayState) (sock : SocketCtx)
    (sessionId candidate : String) (sdpMLineIndex : Nat) (sdpMid : String)
    (now : Nat) : List Emission × RelayState :=
  match sock.userId with
  | none => ([.toSender "error" (.err "Not authenticated")], rs)
  | some uid =>
      match handleIceCandidate rs.svc sessionId uid candidate sdpMLineIndex sdpMid now with
      | .error _ => ([.toSender "webrtc:error" (.err "Failed to send ICE candidate")], rs)
      | .ok iceData =>
          ([.toRoom ("session:" ++ sessionId) "webrtc:ice-candidate" (.ice iceData)], rs)

/-- The `session:join` handler (socketHandler.js lines 433-462):
unauthenticated senders get `error` before anything happens; otherwise the
socket joins the session room, `joinSession` runs, `participant:joined`
goes to the other room members and `session:joined` back to the sender; a
`joinSession` failure yields `session:error` (the room join is not undone,
and neither is any map mutation `joinSession` already performed). -/
def handleSessionJoin (rs : RelayState) (sock : SocketCtx) (sessionId : String)
    (now : Nat) (getOk storeOk : Bool) : List Emission × RelayState :=
  match sock.userId with
  | none => ([.toSender "error" (.err "Not authenticated")], rs)
  | some uid =>
      let rooms := joinRoom rs.rooms sock.id ("session:" ++ sessionId)
      match joinSession rs.svc sessionId uid sock.id now getOk storeOk with
      | (.ok session, svc) =>
          ([.toRoom ("session:" ++ sessionId) "participant:joined" (.joined uid sessionId now),
            .toSender "session:joined" (.sessionJoined session)],
           { svc := svc, rooms := rooms })
      | (.error _, svc) =>
          ([.toSender "session:error" (.err "Failed to join session")],
           { svc := svc, rooms := rooms })

/-- The `session:leave` handler (socketHandler.js lines 465-490):
an unauthenticated sender is ignored silently (bare `return`, no `error`
emission); otherwise the socket leaves the room, `leaveSession` runs and
`participant:left` goes to the remaining room members; any error is caught
and only logged. -/
def handleSessionLeave (rs : RelayState) (sock : SocketCtx) (sessionId : String)
    (now : Nat) (storeOk delOk : Bool) : List Emission × RelayState :=
  match sock.userId with
  | none => ([], rs)
  | some uid =>
      let rooms := leaveRoom rs.rooms sock.id ("session:" ++ sessionId)
      match leaveSession rs.svc sessionId uid storeOk delOk with
      | (.ok _, svc) =>
          ([.toRoom ("session:" ++ sessionId) "participant:left" (.left uid sessionId now)],
           { svc := svc, rooms := rooms })
      | (.error _, svc) => ([], { svc := svc, rooms := rooms })

/-- A relay with no sessions, no redis content and no room bindings. -/
def initRelay : RelayState := { svc := initState, rooms := [] }

end SocketHandler

namespace TwilioService

/-- One entry of the `participants` argument of `createConferenceCall`. -/
structure ConferenceParticipant where
  number : String
  isWhatsApp : Bool
deriving DecidableEq, Repr

/-- The record Twilio returns for a created call (`client.calls.create`). -/
structure CallRecord where
  sid : String
  status : String
deriving DecidableEq, Repr

/-- Result of `addToConference` (twilioService.js lines 114-118). -/
structure LegResult where
  participantSid : String
  number : String
  status : String
deriving DecidableEq, Repr

/-- Result of `createConferenceCall` (twilioService.js lines 89-93): only
the conference sid, a literal status and the participant **count** — no
per-leg breakdown. -/
structure ConferenceResult where
  conferenceSid : String
  status : String
  participants : Nat
deriving DecidableEq, Repr

/-- `addToConference` (twilioService.js lines 103-123): one
`client.calls.create` per participant; a gateway failure is logged and
rethrown unchanged.  `outcome` is the gateway's response for this leg. -/
def addToConference (outcome : Except String CallRecord)
    (participant : ConferenceParticipant) : Except String LegResult :=
  match outcome with
  | .error e => .error e
  | .ok call =>
      .ok { participantSid := call.sid, number := participant.number,
            status := call.status }

/-- `Promise.all` over already-settled outcomes, rejecting with the first
rejection in order. -/
def promiseAll {α : Type} : List (Except String α) → Except String (List α)
  | [] => .ok []
  | .error e :: _ => .error e
  | .ok a :: rest =>
      match promiseAll rest with
      | .ok as => .ok (a :: as)
      | .error e => .error e

/-- `createConferenceCall` (twilioService.js lines 69-98): create the
conference, then add every participant leg concurrently via
`Promise.all`; the `catch` wraps **any** failure — including a single
failed leg — into `Conference call creation failed: ...` and rethrows, so
no partial result is ever produced.  `confOutcome` is the gateway's
response to `conferences.create`, `legOutcomes` its per-leg responses (in
participant order); the conference is requested under the deterministic
friendly name `whatsapp-call-<callId>`. -/
def createConferenceCall (confOutcome : String → Except String String)
    (legOutcomes : List (Except String CallRecord)) (callId : String)
    (participants : List ConferenceParticipant) :
    Except String ConferenceResult :=
  match confOutcome ("whatsapp-call-" ++ callId) with
  | .error e => .error ("Conference call creation failed: " ++ e)
  | .ok conferenceSid =>
      match promiseAll ((legOutcomes.zip participants).map
          (fun p => addToConference p.1 p.2)) with
      | .error e => .error ("Conference call creation failed: " ++ e)
      | .ok _ =>
          .ok { conferenceSid := conferenceSid, status := "created",
                participants := participants.length }

/-- The ambient effects a `TwilioService` method could in principle touch:
the clock, a randomness source, and the log of requests sent to the
gateway.  `generateConferenceTwiML` is shown to touch none of them. -/
structure World where
  now : Nat
  entropy : Nat
  gatewayRequests : List String
deriving DecidableEq, Repr

/-- The `options` argument of `generateConferenceTwiML`; `none` models an
absent key.  (JS `||` defaulting means a present-but-falsy value also
falls back in the first computation, but the trailing `...options` spread
re-overrides the shared keys with the caller's own value.) -/
structure TwimlOptions where
  startOnEnter : Option Bool := none
  endOnExit : Option Bool := none
  waitUrl : Option String := none
  maxParticipants : Option Nat := none
  record : Option String := none
deriving DecidableEq, Repr

def boolAttr (b : Bool) : String := if b then "true" else "false"

/-- The attribute object passed to `dial.conference` in
`generateConferenceTwiML` (twilioService.js lines 133-140), with JS
object-literal semantics: the five computed keys first
(`startConferenceOnEnter: options.startOnEnter || true` is always `true`;
`endConferenceOnExit: options.endOnExit || false`), then `...options`
overrides the shared keys `waitUrl` / `maxParticipants` / `record` with
the caller's value when present and appends the caller's own
`startOnEnter` / `endOnExit` keys. -/
def conferenceAttributes (options : TwimlOptions) : List (String × String) :=
  [("startConferenceOnEnter", "true"),
   ("endConferenceOnExit", boolAttr (options.endOnExit.getD false)),
   ("waitUrl", options.waitUrl.getD ""),
   ("maxParticipants", toString (options.maxParticipants.getD 10)),
   ("record", options.record.getD "record-from-start")]
  ++ (match options.startOnEnter with
      | some b => [("startOnEnter", boolAttr b)]
      | none => [])
  ++ (match options.endOnExit with
      | some b => [("endOnExit", boolAttr b)]
      | none => [])

def renderAttributes : List (String × String) → String
  | [] => ""
  | (k, v) :: rest => " " ++ k ++ "=\"" ++ v ++ "\"" ++ renderAttributes rest

/-- `generateConferenceTwiML` (twilioService.js lines 128-143): builds a
`VoiceResponse`, nests a `Conference` noun with the attributes above under
a `Dial`, and serializes it.  The method performs no gateway call, reads
no clock and consumes no randomness, which the `World` passing makes
explicit: the returned world is the input world, untouched. -/
def generateConferenceTwiML (conferenceName : String)
    (options : TwimlOptions) (w : World) : String × World :=
  ("<?xml version=\"1.0\" encoding=\"UTF-8\"?><Response><Dial><Conference"
     ++ renderAttributes (conferenceAttributes options)
     ++ ">" ++ conferenceName ++ "</Conference></Dial></Response>",
   w)

end TwilioService

namespace WebRTCService

/-!
### Operation traces over the Session Store

To state the lifecycle invariants we run the store operations over event
sequences.  `TraceState` carries, next to the service state, two history
variables that exist only in the model (they are written by no operation's
code path and read by none): `createdIds` records every id ever handed to
`createSession`, `endedIds` every id for which `leaveSession` returned a
session in status `ended` (the `sessionDeleted` observation).
-/

structure TraceState where
  st : ServiceState
  createdIds : List String
  endedIds : List String

def initTrace : TraceState := { st := initState, createdIds := [], endedIds := [] }

/-- One Session Store operation together with the nondeterministic inputs
it consumes (fresh id, clock reading, Redis call outcomes). -/
inductive Ev where
  | create (sessionId userId type : String) (now : Nat) (ice : List String) (storeOk : Bool)
  | join (sessionId userId socketId : String) (now : Nat) (getOk storeOk : Bool)
  | leave (sessionId userId : String) (storeOk delOk : Bool)
  | delete (sessionId : String) (delOk : Bool)
  | cleanup (now : Nat) (delOk : String → Bool)

/-- Apply one operation, threading the history variables. -/
def applyEv (t : TraceState) : Ev → TraceState
  | .create sid uid ty now ice storeOk =>
      { st := (createSession t.st sid uid ty now ice storeOk).2,
        createdIds := t.createdIds ++ [sid], endedIds := t.endedIds }
  | .join sid uid sock now getOk storeOk =>
      { t with st := (joinSession t.st sid uid sock now getOk storeOk).2 }
  | .leave sid uid storeOk delOk =>
      let res := leaveSession t.st sid uid storeOk delOk
      { st := res.2, createdIds := t.createdIds,
        endedIds :=
          match res.1 with
          | .ok sess => if sess.status = "ended" then t.endedIds ++ [sid] else t.endedIds
          | .error _ => t.endedIds }
  | .delete sid delOk =>
      { t with st := { t.st with redis := deleteSession delOk sid t.st.redis } }
  | .cleanup now delOk =>
      { t with st := cleanupExpiredSessions t.st now delOk }

/-- `uuidv4` freshness: an id handed to `createSession` was never handed
out before. -/
def FreshEv (t : TraceState) : Ev → Prop
  | .create sid _ _ _ _ _ => sid ∉ t.createdIds
  | _ => True

/-- All Redis delete calls of the event succeed (the store swallows their
failures, so this is a genuine extra assumption). -/
def DeletesOk : Ev → Prop
  | .leave _ _ _ delOk => delOk = true
  | .delete _ delOk => delOk = true
  | .cleanup _ delOk => ∀ sid, delOk sid = true
  | _ => True

/-- One store operation with a fresh id and succeeding Redis deletes. -/
inductive GoodStep : TraceState → TraceState → Prop where
  | mk (t : TraceState) (ev : Ev) (hfresh : FreshEv t ev) (hdel : DeletesOk ev) :
      GoodStep t (applyEv t ev)

/-- The lifecycle invariant: JS-`Map` key uniqueness in both tiers, no
stored session is in status `ended`, an id once observed `ended` is gone
from both tiers, and every stored id was handed out by `createSession`. -/
structure Inv (t : TraceState) : Prop where
  ndActive : keysNodup t.st.activeSessions
  ndRedis : keysNodup t.st.redis
  activeNotEnded : ∀ k s, mapGet t.st.activeSessions k = some s → s.status ≠ "ended"
  redisNotEnded : ∀ k s, mapGet t.st.redis k = some s → s.status ≠ "ended"
  endedGone : ∀ sid, sid ∈ t.endedIds →
    mapGet t.st.activeSessions sid = none ∧ mapGet t.st.redis (redisKey sid) = none
  endedCreated : ∀ sid, sid ∈ t.endedIds → sid ∈ t.createdIds
  activeCreated : ∀ sid s, mapGet t.st.activeSessions sid = some s → sid ∈ t.createdIds
  redisCreated : ∀ sid s, mapGet t.st.redis (redisKey sid) = some s → sid ∈ t.createdIds

end WebRTCService

/-!
### Concrete fixtures

Small concrete states used to evaluate the operations on explicit inputs.
-/

namespace WebRTCService

def exParticipant : Participant :=
  { userId := "u1", socketId := "sockA", joinedAt := 1, status := "connected" }

def exSession : Session :=
  { id := "s1", userId := "u1", type := "voice", status := "active",
    createdAt := 0, participants := [exParticipant],
    iceConfiguration := ["stun:stun.l.google.com:19302"] }

/-- A one-session state where `u1` is the only participant of `s1`,
mirrored in Redis. -/
def exState : ServiceState :=
  { activeSessions := [("s1", exSession)], redis := [(redisKey "s1", exSession)] }

/-- A participant-free session created two hours before `now = 7200000`. -/
def oldSession : Session :=
  { id := "s1", userId := "u1", type := "voice", status := "created",
    createdAt := 0, participants := [], iceConfiguration := [] }

def exStateOld : ServiceState :=
  { activeSessions := [("s1", oldSession)], redis := [(redisKey "s1", oldSession)] }

/-- Trace: create `s1`, join `u1`. -/
def trA : TraceState := applyEv initTrace (.create "s1" "u1" "voice" 0 [] true)

def trB : TraceState := applyEv trA (.join "s1" "u1" "sockA" 1 true true)

/-- ... then `u1` leaves with the Redis delete succeeding. -/
def trC : TraceState := applyEv trB (.leave "s1" "u1" true true)

/-- ... or `u1` leaves while the Redis delete fails (silently swallowed). -/
def trX : TraceState := applyEv trB (.leave "s1" "u1" true false)

end WebRTCService

namespace SocketHandler

open WebRTCService

/-- An authenticated channel whose user `u2` is not a participant of
`s1`. -/
def exSock2 : SocketCtx := { id := "sockX", userId := some "u2" }

/-- A channel that never completed `authenticate`. -/
def exSockAnon : SocketCtx := { id := "sockZ", userId := none }

def exRelay : RelayState := { svc := exState, rooms := [("sockA", "session:s1")] }

end SocketHandler

namespace TwilioService

/-- A gateway that accepts any conference-creation request. -/
def confOk : String → Except String String := fun _ => .ok "CF123"

def rec1 : CallRecord := { sid := "CA1", status := "queued" }

def rec2 : CallRecord := { sid := "CA2", status := "queued" }

def part1 : ConferenceParticipant :=
  { number := "whatsapp:+15551234567", isWhatsApp := true }

def part2 : ConferenceParticipant :=
  { number := "+15550000000", isWhatsApp := false }

end TwilioService

/-!
## Theorems

Generic association-list lemmas first, then the per-claim results.
-/

theorem mapGet_mapSet {α : Type} (m : List (String × α)) (k k' : String) (v : α) :
    mapGet (mapSet m k v) k' = if k = k' then some v else mapGet m k' := by
  induction m with
  | nil =>
      by_cases h : k = k' <;> simp [mapSet, mapGet, h]
  | cons hd tl ih =>
      obtain ⟨k₀, v₀⟩ := hd
      by_cases h₀ : k₀ = k
      · subst h₀
        by_cases h : k₀ = k' <;> simp [mapSet, mapGet, h]
      · by_cases h : k₀ = k'
        · subst h
          have : ¬ k = k₀ := fun hh => h₀ hh.symm
          simp [mapSet, mapGet, h₀, this]
        · simp [mapSet, mapGet, h₀, h, ih]

theorem mapGet_mapDelete {α : Type} (m : List (String × α)) (k k' : String) :
    mapGet (mapDelete m k) k' = if k = k' then none else mapGet m k' := by
  induction m with
  | nil =>
      by_cases h : k = k' <;> simp [mapDelete, mapGet, h]
  | cons hd tl ih =>
      obtain ⟨k₀, v₀⟩ := hd
      by_cases h₀ : k₀ = k
      · subst h₀
        by_cases h : k₀ = k'
        · subst h
          simpa [mapDelete] using ih
        · simp [mapDelete, mapGet, h, ih]
      · by_cases h : k₀ = k'
        · subst h
          have : ¬ k = k₀ := fun hh => h₀ hh.symm
          simp [mapDelete, mapGet, h₀, this]
        · simp [mapDelete, mapGet, h₀, h, ih]

theorem WebRTCService.redisKey_inj {a b : String}
    (h : WebRTCService.redisKey a = WebRTCService.redisKey b) : a = b := by
  have hd : ("webrtc:session:" ++ a).data = ("webrtc:session:" ++ b).data := by
    simpa [WebRTCService.redisKey] using congrArg String.data h
  have : a.data = b.data := by
    simpa [String.data_append] using List.append_cancel_left hd
  cases a; cases b; exact congrArg String.mk this

theorem mapGet_some_mem_keys {α : Type} {m : List (String × α)} {k : String} {v : α}
    (h : mapGet m k = some v) : k ∈ m.map Prod.fst := by
  induction m with
  | nil => simp [mapGet] at h
  | cons hd tl ih =>
      obtain ⟨k₀, v₀⟩ := hd
      by_cases hk : k₀ = k
      · subst hk; simp
      · simp only [mapGet, if_neg hk] at h
        exact List.mem_cons_of_mem _ (ih h)

theorem mapGet_none_of_not_mem {α : Type} {m : List (String × α)} {k : String}
    (h : k ∉ m.map Prod.fst) : mapGet m k = none := by
  induction m with
  | nil => rfl
  | cons hd tl ih =>
      obtain ⟨k₀, v₀⟩ := hd
      simp only [List.map_cons, List.mem_cons] at h
      push_neg at h
      simp only [mapGet, if_neg (fun hh : k₀ = k => h.1 hh.symm)]
      exact ih h.2

theorem keys_filter_subset {α : Type} {m : List (String × α)} (p : String × α → Bool)
    {k : String} (h : k ∈ (m.filter p).map Prod.fst) : k ∈ m.map Prod.fst :=
  (List.Sublist.map Prod.fst (List.filter_sublist m)).mem h

theorem mapGet_filter {α : Type} {m : List (String × α)} (hnd : keysNodup m)
    (p : String × α → Bool) (k : String) :
    mapGet (m.filter p) k =
      (mapGet m k).bind (fun v => if p (k, v) then some v else none) := by
  induction m with
  | nil => simp [mapGet]
  | cons hd tl ih =>
      obtain ⟨k₀, v₀⟩ := hd
      have hnd' : keysNodup tl := by
        have := (List.nodup_cons.mp hnd).2
        simpa [keysNodup] using this
      have hnotin : k₀ ∉ tl.map Prod.fst := (List.nodup_cons.mp hnd).1
      by_cases hk : k₀ = k
      · subst hk
        cases hp : p (k₀, v₀) with
        | true => simp [List.filter_cons, hp, mapGet]
        | false =>
            have hnone : mapGet (tl.filter p) k₀ = none :=
              mapGet_none_of_not_mem (fun hm => hnotin (keys_filter_subset p hm))
            simp [List.filter_cons, hp, mapGet, hnone]
      · cases hp : p (k₀, v₀) with
        | true => simp [List.filter_cons, hp, mapGet, if_neg hk, ih hnd']
        | false => simp [List.filter_cons, hp, mapGet, if_neg hk, ih hnd']

theorem keys_mapSet {α : Type} (m : List (String × α)) (k : String) (v : α) :
    (mapSet m k v).map Prod.fst =
      if k ∈ m.map Prod.fst then m.map Prod.fst else m.map Prod.fst ++ [k] := by
  induction m with
  | nil => simp [mapSet]
  | cons hd tl ih =>
      obtain ⟨k₀, v₀⟩ := hd
      by_cases hk : k₀ = k
      · subst hk; simp [mapSet]
      · have hne : ¬ k = k₀ := fun hh => hk hh.symm
        by_cases hm : k ∈ tl.map Prod.fst
        · simp [mapSet, hk, ih, hm, hne]
        · simp [mapSet, hk, ih, hm, hne]

theorem keysNodup_mapSet {α : Type} {m : List (String × α)} (hnd : keysNodup m)
    (k : String) (v : α) : keysNodup (mapSet m k v) := by
  unfold keysNodup at hnd ⊢
  rw [keys_mapSet]
  by_cases hm : k ∈ m.map Prod.fst
  · simpa [hm] using hnd
  · simp only [hm, if_false]
    exact List.Nodup.append hnd (List.nodup_singleton k)
      (by simpa [List.disjoint_singleton] using hm)

theorem mapDelete_sublist {α : Type} (m : List (String × α)) (k : String) :
    List.Sublist (mapDelete m k) m := by
  induction m with
  | nil => simp [mapDelete]
  | cons hd tl ih =>
      obtain ⟨k₀, v₀⟩ := hd
      by_cases hk : k₀ = k
      · simpa [mapDelete, hk] using List.Sublist.cons (k₀, v₀) ih
      · simpa [mapDelete, hk] using List.Sublist.cons₂ (k₀, v₀) ih

theorem keysNodup_mapDelete {α : Type} {m : List (String × α)} (hnd : keysNodup m)
    (k : String) : keysNodup (mapDelete m k) :=
  List.Nodup.sublist (List.Sublist.map Prod.fst (mapDelete_sublist m k)) hnd

theorem keysNodup_filter {α : Type} {m : List (String × α)} (hnd : keysNodup m)
    (p : String × α → Bool) : keysNodup (m.filter p) :=
  List.Nodup.sublist (List.Sublist.map Prod.fst (List.filter_sublist m)) hnd

theorem mapGet_deleteSession (b : Bool) (sid : String)
    (r : List (String × Session)) (k : String) :
    mapGet (WebRTCService.deleteSession b sid r) k =
      if b = true ∧ WebRTCService.redisKey sid = k then none else mapGet r k := by
  cases b <;> simp [WebRTCService.deleteSession, mapGet_mapDelete]

theorem keysNodup_deleteSession {r : List (String × Session)} (hnd : keysNodup r)
    (b : Bool) (sid : String) : keysNodup (WebRTCService.deleteSession b sid r) := by
  cases b
  · simpa [WebRTCService.deleteSession] using hnd
  · simpa [WebRTCService.deleteSession] using keysNodup_mapDelete hnd _

theorem foldl_delete_subset (d : String → Bool) (l : List (String × Session))
    (r : List (String × Session)) (k : String) (s : Session)
    (h : mapGet (l.foldl (fun r p => WebRTCService.deleteSession (d p.1) p.1 r) r) k = some s) :
    mapGet r k = some s := by
  induction l generalizing r with
  | nil => exact h
  | cons hd tl ih =>
      have h' := ih _ h
      rw [mapGet_deleteSession] at h'
      by_cases hc : d hd.1 = true ∧ WebRTCService.redisKey hd.1 = k
      · rw [if_pos hc] at h'; exact absurd h' (by simp)
      · rwa [if_neg hc] at h'

theorem foldl_delete_none (d : String → Bool) (l : List (String × Session))
    (r : List (String × Session)) (k : String) (h : mapGet r k = none) :
    mapGet (l.foldl (fun r p => WebRTCService.deleteSession (d p.1) p.1 r) r) k = none := by
  induction l generalizing r with
  | nil => exact h
  | cons hd tl ih =>
      apply ih
      rw [mapGet_deleteSession]
      by_cases hc : d hd.1 = true ∧ WebRTCService.redisKey hd.1 = k
      · rw [if_pos hc]
      · rwa [if_neg hc]

theorem foldl_delete_mem_none (d : String → Bool) (l : List (String × Session))
    (r : List (String × Session)) (k : String) (hd : d k = true)
    (hk : k ∈ l.map Prod.fst) :
    mapGet (l.foldl (fun r p => WebRTCService.deleteSession (d p.1) p.1 r) r)
      (WebRTCService.redisKey k) = none := by
  induction l generalizing r with
  | nil => simp at hk
  | cons hd₀ tl ih =>
      obtain ⟨k₀, v₀⟩ := hd₀
      rw [List.foldl_cons]
      by_cases hkk : k₀ = k
      · subst hkk
        exact foldl_delete_none d tl _ _
          (by rw [mapGet_deleteSession, if_pos ⟨hd, rfl⟩])
      · have hmem : k ∈ tl.map Prod.fst := by
          rcases List.mem_cons.mp hk with h | h
          · exact absurd h.symm hkk
          · exact h
        exact ih _ hmem

theorem keysNodup_foldl_delete (d : String → Bool) (l : List (String × Session))
    {r : List (String × Session)} (hnd : keysNodup r) :
    keysNodup (l.foldl (fun r p => WebRTCService.deleteSession (d p.1) p.1 r) r) := by
  induction l generalizing r with
  | nil => exact hnd
  | cons hd tl ih => exact ih (keysNodup_deleteSession hnd _ _)

theorem mapGet_isSome_of_mem_keys {α : Type} {m : List (String × α)} {k : String}
    (h : k ∈ m.map Prod.fst) : (mapGet m k).isSome := by
  induction m with
  | nil => simp at h
  | cons hd tl ih =>
      obtain ⟨k₀, v₀⟩ := hd
      by_cases hk : k₀ = k
      · simp [mapGet, hk]
      · rcases List.mem_cons.mp h with h' | h'
        · exact absurd h'.symm hk
        · simpa [mapGet, hk] using ih h'

theorem not_mem_keys_of_mapGet_none {α : Type} {m : List (String × α)} {k : String}
    (h : mapGet m k = none) : k ∉ m.map Prod.fst := by
  intro hmem
  have := mapGet_isSome_of_mem_keys hmem
  rw [h] at this
  simp at this

theorem mapGet_filter_none {α : Type} {m : List (String × α)} (p : String × α → Bool)
    {k : String} (h : mapGet m k = none) : mapGet (m.filter p) k = none :=
  mapGet_none_of_not_mem
    (fun hmem => not_mem_keys_of_mapGet_none h (keys_filter_subset p hmem))

theorem mapGet_filter_some {α : Type} {m : List (String × α)} (hnd : keysNodup m)
    {p : String × α → Bool} {k : String} {s : α}
    (h : mapGet (m.filter p) k = some s) :
    mapGet m k = some s ∧ p (k, s) = true := by
  rw [mapGet_filter hnd p k] at h
  rcases hg : mapGet m k with _ | v
  · rw [hg] at h; simp at h
  · rw [hg] at h
    simp only [Option.some_bind] at h
    by_cases hp : p (k, v) = true
    · rw [if_pos hp] at h
      obtain rfl : v = s := by simpa using h
      exact ⟨rfl, hp⟩
    · rw [if_neg hp] at h; simp at h

namespace WebRTCService

/-- Writing a non-`ended` session for an already-issued, never-`ended` id
into the map — and, when the write-through succeeds, into Redis —
preserves the lifecycle invariant.  This is the common shape of
`createSession`, `joinSession` and the non-terminal branch of
`leaveSession`. -/
theorem inv_writeThrough (t : TraceState) (hinv : Inv t) (sid : String) (s' : Session)
    (C' : List String) (R' : List (String × Session))
    (hstat : s'.status ≠ "ended")
    (hsub : ∀ x, x ∈ t.createdIds → x ∈ C')
    (hsid : sid ∈ C')
    (hne : sid ∉ t.endedIds)
    (hR : R' = mapSet t.st.redis (redisKey sid) s' ∨ R' = t.st.redis) :
    Inv { st := { activeSessions := mapSet t.st.activeSessions sid s', redis := R' },
          createdIds := C', endedIds := t.endedIds } := by
  constructor
  · exact keysNodup_mapSet hinv.ndActive sid s'
  · rcases hR with rfl | rfl
    · exact keysNodup_mapSet hinv.ndRedis (redisKey sid) s'
    · exact hinv.ndRedis
  · intro k s h
    dsimp only at h
    rw [mapGet_mapSet] at h
    by_cases hk : sid = k
    · rw [if_pos hk] at h
      obtain rfl : s' = s := by simpa using h
      exact hstat
    · rw [if_neg hk] at h
      exact hinv.activeNotEnded k s h
  · intro k s h
    dsimp only at h
    rcases hR with rfl | rfl
    · rw [mapGet_mapSet] at h
      by_cases hk : redisKey sid = k
      · rw [if_pos hk] at h
        obtain rfl : s' = s := by simpa using h
        exact hstat
      · rw [if_neg hk] at h
        exact hinv.redisNotEnded k s h
    · exact hinv.redisNotEnded k s h
  · intro e he
    dsimp only at he ⊢
    have hes := hinv.endedGone e he
    have hesid : ¬ sid = e := fun hh => hne (hh ▸ he)
    constructor
    · rw [mapGet_mapSet, if_neg hesid]
      exact hes.1
    · rcases hR with rfl | rfl
      · rw [mapGet_mapSet]
        rw [if_neg (fun hh => hesid (redisKey_inj hh))]
        exact hes.2
      · exact hes.2
  · intro e he
    exact hsub e (hinv.endedCreated e he)
  · intro k s h
    dsimp only at h
    rw [mapGet_mapSet] at h
    by_cases hk : sid = k
    · exact hk ▸ hsid
    · rw [if_neg hk] at h
      exact hsub k (hinv.activeCreated k s h)
  · intro k s h
    dsimp only at h
    rcases hR with rfl | rfl
    · rw [mapGet_mapSet] at h
      by_cases hk : redisKey sid = redisKey k
      · exact (redisKey_inj hk) ▸ hsid
      · rw [if_neg hk] at h
        exact hsub k (hinv.redisCreated k s h)
    · exact hsub k (hinv.redisCreated k s h)

/-- The terminal branch of `leaveSession`: the id is removed from both
tiers and recorded as `ended`; this preserves the invariant provided the
id was handed out by `createSession`. -/
theorem inv_endDelete (t : TraceState) (hinv : Inv t) (sid : String)
    (hsidC : sid ∈ t.createdIds) :
    Inv { st := { activeSessions := mapDelete t.st.activeSessions sid,
                  redis := mapDelete t.st.redis (redisKey sid) },
          createdIds := t.createdIds, endedIds := t.endedIds ++ [sid] } := by
  constructor
  · exact keysNodup_mapDelete hinv.ndActive sid
  · exact keysNodup_mapDelete hinv.ndRedis (redisKey sid)
  · intro k s h
    dsimp only at h
    rw [mapGet_mapDelete] at h
    by_cases hk : sid = k
    · rw [if_pos hk] at h; exact absurd h (by simp)
    · rw [if_neg hk] at h
      exact hinv.activeNotEnded k s h
  · intro k s h
    dsimp only at h
    rw [mapGet_mapDelete] at h
    by_cases hk : redisKey sid = k
    · rw [if_pos hk] at h; exact absurd h (by simp)
    · rw [if_neg hk] at h
      exact hinv.redisNotEnded k s h
  · intro e he
    dsimp only at he ⊢
    rw [mapGet_mapDelete, mapGet_mapDelete]
    rcases List.mem_append.mp he with he' | he'
    · have hes := hinv.endedGone e he'
      constructor
      · by_cases hk : sid = e
        · rw [if_pos hk]
        · rw [if_neg hk]; exact hes.1
      · by_cases hk : redisKey sid = redisKey e
        · rw [if_pos hk]
        · rw [if_neg hk]; exact hes.2
    · obtain rfl : e = sid := by simpa using he'
      exact ⟨by rw [if_pos rfl], by rw [if_pos rfl]⟩
  · intro e he
    dsimp only at he ⊢
    rcases List.mem_append.mp he with he' | he'
    · exact hinv.endedCreated e he'
    · obtain rfl : e = sid := by simpa using he'
      exact hsidC
  · intro k s h
    dsimp only at h
    rw [mapGet_mapDelete] at h
    by_cases hk : sid = k
    · rw [if_pos hk] at h; exact absurd h (by simp)
    · rw [if_neg hk] at h
      exact hinv.activeCreated k s h
  · intro k s h
    dsimp only at h
    rw [mapGet_mapDelete] at h
    by_cases hk : redisKey sid = redisKey k
    · rw [if_pos hk] at h; exact absurd h (by simp)
    · rw [if_neg hk] at h
      exact hinv.redisCreated k s h

/-- `deleteSession` alone (Redis-only removal) preserves the invariant. -/
theorem inv_redisDelete (t : TraceState) (hinv : Inv t) (sid : String) :
    Inv { st := { activeSessions := t.st.activeSessions,
                  redis := mapDelete t.st.redis (redisKey sid) },
          createdIds := t.createdIds, endedIds := t.endedIds } := by
  constructor
  · exact hinv.ndActive
  · exact keysNodup_mapDelete hinv.ndRedis (redisKey sid)
  · exact hinv.activeNotEnded
  · intro k s h
    dsimp only at h
    rw [mapGet_mapDelete] at h
    by_cases hk : redisKey sid = k
    · rw [if_pos hk] at h; exact absurd h (by simp)
    · rw [if_neg hk] at h
      exact hinv.redisNotEnded k s h
  · intro e he
    refine ⟨(hinv.endedGone e he).1, ?_⟩
    dsimp only
    rw [mapGet_mapDelete]
    by_cases hk : redisKey sid = redisKey e
    · rw [if_pos hk]
    · rw [if_neg hk]; exact (hinv.endedGone e he).2
  · exact hinv.endedCreated
  · exact hinv.activeCreated
  · intro k s h
    dsimp only at h
    rw [mapGet_mapDelete] at h
    by_cases hk : redisKey sid = redisKey k
    · rw [if_pos hk] at h; exact absurd h (by simp)
    · rw [if_neg hk] at h
      exact hinv.redisCreated k s h

/-- The expiry sweep preserves the invariant (it only removes entries,
from both tiers). -/
theorem inv_cleanup (t : TraceState) (hinv : Inv t) (now : Nat)
    (delOk : String → Bool) :
    Inv { st := cleanupExpiredSessions t.st now delOk,
          createdIds := t.createdIds, endedIds := t.endedIds } := by
  constructor
  · exact keysNodup_filter hinv.ndActive _
  · exact keysNodup_foldl_delete delOk _ hinv.ndRedis
  · intro k s h
    exact hinv.activeNotEnded k s (mapGet_filter_some hinv.ndActive h).1
  · intro k s h
    exact hinv.redisNotEnded k s (foldl_delete_subset delOk _ _ _ _ h)
  · intro e he
    refine ⟨?_, ?_⟩
    · exact mapGet_filter_none _ (hinv.endedGone e he).1
    · exact foldl_delete_none delOk _ _ _ (hinv.endedGone e he).2
  · exact hinv.endedCreated
  · intro k s h
    exact hinv.activeCreated k s (mapGet_filter_some hinv.ndActive h).1
  · intro k s h
    exact hinv.redisCreated k s (foldl_delete_subset delOk _ _ _ _ h)

/-- Every Session Store operation preserves the lifecycle invariant, given
id freshness for `createSession` and succeeding Redis deletes. -/
theorem inv_applyEv (t : TraceState) (ev : Ev) (hinv : Inv t)
    (hfresh : FreshEv t ev) (hdel : DeletesOk ev) : Inv (applyEv t ev) := by
  cases ev with
  | create sid uid ty now ice storeOk =>
      have hfresh' : sid ∉ t.createdIds := hfresh
      have hneE : sid ∉ t.endedIds := fun he => hfresh' (hinv.endedCreated sid he)
      cases storeOk
      · exact inv_writeThrough t hinv sid
          { id := sid, userId := uid, type := ty, status := "created",
            createdAt := now, participants := [], iceConfiguration := ice }
          (t.createdIds ++ [sid]) t.st.redis
          (show ("created" : String) ≠ "ended" by decide)
          (fun x hx => List.mem_append_left _ hx)
          (List.mem_append_right _ (by simp)) hneE (Or.inr rfl)
      · exact inv_writeThrough t hinv sid
          { id := sid, userId := uid, type := ty, status := "created",
            createdAt := now, participants := [], iceConfiguration := ice }
          (t.createdIds ++ [sid]) _
          (show ("created" : String) ≠ "ended" by decide)
          (fun x hx => List.mem_append_left _ hx)
          (List.mem_append_right _ (by simp)) hneE (Or.inl rfl)
  | join sid uid sock now getOk storeOk =>
      rcases hm : mapGet t.st.activeSessions sid with _ | s
      · cases getOk
        · simpa [applyEv, joinSession, hm, getSession] using hinv
        · rcases hr : mapGet t.st.redis (redisKey sid) with _ | s
          · simpa [applyEv, joinSession, hm, getSession, hr] using hinv
          · have hsidC := hinv.redisCreated sid s hr
            have hneE : sid ∉ t.endedIds := fun he => by
              have h2 := (hinv.endedGone sid he).2
              rw [hr] at h2; exact Option.noConfusion h2
            cases storeOk
            · simp only [applyEv, joinSession, hm, getSession, hr, storeSession]
              exact inv_writeThrough t hinv sid _ t.createdIds t.st.redis
                (show ("active" : String) ≠ "ended" by decide)
                (fun x hx => hx) hsidC hneE (Or.inr rfl)
            · simp only [applyEv, joinSession, hm, getSession, hr, storeSession]
              exact inv_writeThrough t hinv sid _ t.createdIds _
                (show ("active" : String) ≠ "ended" by decide)
                (fun x hx => hx) hsidC hneE (Or.inl rfl)
      · have hsidC := hinv.activeCreated sid s hm
        have hneE : sid ∉ t.endedIds := fun he => by
          have h1 := (hinv.endedGone sid he).1
          rw [hm] at h1; exact Option.noConfusion h1
        cases storeOk
        · simp only [applyEv, joinSession, hm, storeSession]
          exact inv_writeThrough t hinv sid _ t.createdIds t.st.redis
            (show ("active" : String) ≠ "ended" by decide)
            (fun x hx => hx) hsidC hneE (Or.inr rfl)
        · simp only [applyEv, joinSession, hm, storeSession]
          exact inv_writeThrough t hinv sid _ t.createdIds _
            (show ("active" : String) ≠ "ended" by decide)
            (fun x hx => hx) hsidC hneE (Or.inl rfl)
  | leave sid uid storeOk delOk =>
      have hdel' : delOk = true := hdel
      subst hdel'
      rcases hm : mapGet t.st.activeSessions sid with _ | s
      · simpa [applyEv, leaveSession, hm] using hinv
      · have hsidC := hinv.activeCreated sid s hm
        have hneE : sid ∉ t.endedIds := fun he => by
          have h1 := (hinv.endedGone sid he).1
          rw [hm] at h1; exact Option.noConfusion h1
        have hstat : s.status ≠ "ended" := hinv.activeNotEnded sid s hm
        by_cases hrem : (s.participants.filter (fun p => p.userId != uid)).length = 0
        · simp only [applyEv, leaveSession, hm, if_pos hrem, deleteSession]
          exact inv_endDelete t hinv sid hsidC
        · cases storeOk
          · simp only [applyEv, leaveSession, hm, if_neg hrem, storeSession]
            exact inv_writeThrough t hinv sid _ t.createdIds t.st.redis
              hstat (fun x hx => hx) hsidC hneE (Or.inr rfl)
          · simp only [applyEv, leaveSession, hm, if_neg hrem, storeSession]
            rw [if_neg hstat]
            exact inv_writeThrough t hinv sid _ t.createdIds _
              hstat (fun x hx => hx) hsidC hneE (Or.inl rfl)
  | delete sid delOk =>
      have hdel' : delOk = true := hdel
      subst hdel'
      simp only [applyEv, deleteSession]
      exact inv_redisDelete t hinv sid
  | cleanup now delOk =>
      exact inv_cleanup t hinv now delOk

/-- The invariant holds along every `GoodStep` chain from the initial
state. -/
theorem inv_of_steps {a b : TraceState} (h : Relation.ReflTransGen GoodStep a b)
    (ha : Inv a) : Inv b := by
  induction h with
  | refl => exact ha
  | tail _ hstep ih =>
      cases hstep with
      | mk ev hfresh hdel => exact inv_applyEv _ ev ih hfresh hdel

theorem inv_initTrace : Inv initTrace := by
  constructor <;> simp [initTrace, initState, keysNodup, mapGet]

/-- One operation can only add to the `endedIds` history. -/
theorem endedIds_mono_step (t : TraceState) (ev : Ev) :
    ∀ sid, sid ∈ t.endedIds → sid ∈ (applyEv t ev).endedIds := by
  intro sid hs
  cases ev with
  | create _ _ _ _ _ _ => exact hs
  | join _ _ _ _ _ _ => exact hs
  | leave sid₀ uid₀ storeOk₀ delOk₀ =>
      simp only [applyEv]
      rcases (leaveSession t.st sid₀ uid₀ storeOk₀ delOk₀).1 with e | sess
      · exact hs
      · dsimp only
        by_cases hender : sess.status = "ended"
        · rw [if_pos hender]; exact List.mem_append_left _ hs
        · rw [if_neg hender]; exact hs
  | delete _ _ => exact hs
  | cleanup _ _ => exact hs

/-- `endedIds` only grows along `GoodStep` chains. -/
theorem endedIds_mono {a b : TraceState} (h : Relation.ReflTransGen GoodStep a b) :
    ∀ sid, sid ∈ a.endedIds → sid ∈ b.endedIds := by
  induction h with
  | refl => exact fun _ hs => hs
  | tail _ hstep ih =>
      intro sid hs
      cases hstep with
      | mk ev hfresh hdel => exact endedIds_mono_step _ ev sid (ih sid hs)

end WebRTCService

/-!
### Remaining shared helper lemmas
-/

theorem mapGet_mem {α : Type} {m : List (String × α)} {k : String} {v : α}
    (h : mapGet m k = some v) : (k, v) ∈ m := by
  induction m with
  | nil => simp [mapGet] at h
  | cons hd tl ih =>
      obtain ⟨k₀, v₀⟩ := hd
      by_cases hk : k₀ = k
      · subst hk
        have h' : v₀ = v := by simpa [mapGet] using h
        subst h'
        exact List.mem_cons_self _ _
      · simp only [mapGet, if_neg hk] at h
        exact List.mem_cons_of_mem _ (ih h)

theorem leaveSession_not_found (st : WebRTCService.ServiceState)
    (sid uid : String) (storeOk delOk : Bool)
    (h : mapGet st.activeSessions sid = none) :
    (WebRTCService.leaveSession st sid uid storeOk delOk).1 =
      .error "Session not found" := by
  simp [WebRTCService.leaveSession, h]

theorem filter_userId_ne_eq_self {l : List Participant} {uid : String}
    (h : ∀ p ∈ l, p.userId ≠ uid) :
    l.filter (fun p => p.userId != uid) = l := by
  induction l with
  | nil => rfl
  | cons a as ih =>
      have ha : (a.userId != uid) = true := by
        simpa [bne_iff_ne] using h a (List.mem_cons_self a as)
      simp [List.filter_cons, ha, ih (fun p hp => h p (List.mem_cons_of_mem _ hp))]

namespace TwilioService

theorem promiseAll_ok_of_forall_ok {α : Type} (l : List (Except String α))
    (h : ∀ o ∈ l, o.isOk = true) : ∃ as, promiseAll l = .ok as := by
  induction l with
  | nil => exact ⟨[], rfl⟩
  | cons o rest ih =>
      cases o with
      | error e =>
          have := h _ (List.mem_cons_self _ _)
          simp [Except.isOk, Except.toBool] at this
      | ok a =>
          obtain ⟨as, has⟩ := ih (fun o ho => h o (List.mem_cons_of_mem _ ho))
          exact ⟨a :: as, by simp [promiseAll, has]⟩

theorem promiseAll_error_of_mem {α : Type} (l : List (Except String α)) (e : String)
    (h : Except.error e ∈ l) : ∃ e', promiseAll l = .error e' := by
  induction l with
  | nil => simp at h
  | cons o rest ih =>
      cases o with
      | error e₀ => exact ⟨e₀, rfl⟩
      | ok a =>
          have hmem : Except.error e ∈ rest := by
            rcases List.mem_cons.mp h with h' | h'
            · exact absurd h' (by simp)
            · exact h'
          obtain ⟨e', he⟩ := ih hmem
          exact ⟨e', by simp [promiseAll, he]⟩

theorem legs_all_ok (legOutcomes : List (Except String CallRecord))
    (participants : List ConferenceParticipant)
    (h : ∀ o ∈ legOutcomes, o.isOk = true) :
    ∀ o ∈ (legOutcomes.zip participants).map (fun p => addToConference p.1 p.2),
      o.isOk = true := by
  intro o ho
  rcases List.mem_map.mp ho with ⟨⟨leg, part⟩, hmem, rfl⟩
  have hleg : leg.isOk = true := h leg (List.of_mem_zip hmem).1
  cases leg with
  | error e => simp [Except.isOk, Except.toBool] at hleg
  | ok c => simp [addToConference, Except.isOk, Except.toBool]

theorem legs_error_mem (legOutcomes : List (Except String CallRecord))
    (participants : List ConferenceParticipant)
    (hlen : legOutcomes.length = participants.length) (e : String)
    (h : Except.error e ∈ legOutcomes) :
    Except.error e ∈ (legOutcomes.zip participants).map
      (fun p => addToConference p.1 p.2) := by
  induction legOutcomes generalizing participants with
  | nil => simp at h
  | cons o rest ih =>
      cases participants with
      | nil => simp at hlen
      | cons q qs =>
          have hlen' : rest.length = qs.length := by simpa using hlen
          rcases List.mem_cons.mp h with h' | h'
          · subst h'
            simp [addToConference]
          · exact List.mem_cons_of_mem _ (ih qs hlen' h')

end TwilioService

/-!
### Per-claim results
-/

open WebRTCService SocketHandler TwilioService

/-- Claim C1, counterexample: `createConferenceCall` for two participants
where the first leg creation succeeds and the second fails raises
`Conference call creation failed: ...` (the `catch` around `Promise.all`),
instead of returning a partial result — refuting "if at least one leg
creation succeeds the call does not fail". -/
theorem c1_counterexample :
    createConferenceCall confOk [.ok rec1, .error "leg failed"] "call-abc"
        [part1, part2] =
      .error "Conference call creation failed: leg failed"
  ∧ (Except.ok rec1 : Except String CallRecord).isOk = true :=
  ⟨rfl, rfl⟩

/-- Claim C1 (amended): `createConferenceCall` is all-or-nothing: when the
conference is created, it succeeds — with only a conference sid, a literal
status and the participant count, no per-leg breakdown — exactly when
every leg creation succeeds, and it raises a wrapped error as soon as
**any** single leg creation fails (not only when all fail). -/
theorem c1_conference_all_or_nothing
    (confOutcome : String → Except String String)
    (legOutcomes : List (Except String CallRecord)) (callId : String)
    (participants : List ConferenceParticipant) (confSid : String)
    (hconf : confOutcome ("whatsapp-call-" ++ callId) = .ok confSid)
    (hlen : legOutcomes.length = participants.length) :
    ((∀ o ∈ legOutcomes, o.isOk = true) →
        createConferenceCall confOutcome legOutcomes callId participants =
          .ok { conferenceSid := confSid, status := "created",
                participants := participants.length })
  ∧ (∀ e, Except.error e ∈ legOutcomes →
        ∃ e', createConferenceCall confOutcome legOutcomes callId participants =
          .error ("Conference call creation failed: " ++ e')) := by
  constructor
  · intro hall
    obtain ⟨as, has⟩ :=
      promiseAll_ok_of_forall_ok _ (legs_all_ok legOutcomes participants hall)
    simp [createConferenceCall, hconf, has]
  · intro e hmem
    obtain ⟨e', he⟩ :=
      promiseAll_error_of_mem _ e (legs_error_mem legOutcomes participants hlen e hmem)
    exact ⟨e', by simp [createConferenceCall, hconf, he]⟩

/-- Witness for C1 (amended), at two concrete inputs: two successful legs
give a success carrying the participant count; one failed leg out of two
raises the wrapped error. -/
theorem c1_conference_all_or_nothing_witness :
    (createConferenceCall confOk [.ok rec1, .ok rec2] "call-1" [part1, part2] =
       .ok { conferenceSid := "CF123", status := "created", participants := 2 })
  ∧ (∃ e', createConferenceCall confOk [.ok rec1, .error "boom"] "call-2"
       [part1, part2] = .error ("Conference call creation failed: " ++ e')) :=
  ⟨(c1_conference_all_or_nothing confOk [.ok rec1, .ok rec2] "call-1"
      [part1, part2] "CF123" rfl rfl).1 (by decide),
   (c1_conference_all_or_nothing confOk [.ok rec1, .error "boom"] "call-2"
      [part1, part2] "CF123" rfl rfl).2 "boom" (by simp)⟩

/-- Claim C2, counterexample: joining session `s1` again as `u1` (new
channel `sockB`) leaves **two** participant entries for `u1` — the
membership entry is not replaced, refuting the last-write-wins reconnect
semantics. -/
theorem c2_counterexample :
    (exSession.participants.filter (fun p => p.userId == "u1")).length = 1
  ∧ ((joinSession exState "s1" "u1" "sockB" 10 true true).1.toOption.map
       (fun s => (s.participants.filter (fun p => p.userId == "u1")).length)) =
      some 2 :=
  ⟨rfl, rfl⟩

/-- Claim C2 (amended): `joinSession` appends a fresh participant entry
unconditionally and sets the status to `active`; when the `userId` is
already present the session afterwards holds the old entry **plus** the
new one (the per-user entry count grows by one; nothing is replaced). -/
theorem c2_joinSession_appends (st : ServiceState) (sid uid sock : String)
    (now : Nat) (getOk storeOk : Bool) (s : Session)
    (h : mapGet st.activeSessions sid = some s) :
    mapGet (joinSession st sid uid sock now getOk storeOk).2.activeSessions sid =
      some { s with
             participants := s.participants ++
               [{ userId := uid, socketId := sock, joinedAt := now,
                  status := "connected" }],
             status := "active" }
  ∧ ((mapGet (joinSession st sid uid sock now getOk storeOk).2.activeSessions sid).map
       (fun s' => (s'.participants.filter (fun p => p.userId == uid)).length)) =
      some ((s.participants.filter (fun p => p.userId == uid)).length + 1) := by
  have hmain : mapGet (joinSession st sid uid sock now getOk storeOk).2.activeSessions sid =
      some { s with
             participants := s.participants ++
               [{ userId := uid, socketId := sock, joinedAt := now,
                  status := "connected" }],
             status := "active" } := by
    cases storeOk <;> simp only [joinSession, h, storeSession] <;>
      rw [mapGet_mapSet, if_pos rfl]
  refine ⟨hmain, ?_⟩
  rw [hmain]
  simp [List.filter_append]

/-- Witness for C2 (amended) on the concrete one-participant state. -/
theorem c2_joinSession_appends_witness :
    mapGet exState.activeSessions "s1" = some exSession
  ∧ (mapGet (joinSession exState "s1" "u1" "sockB" 10 true true).2.activeSessions "s1" =
       some { exSession with
              participants := exSession.participants ++
                [{ userId := "u1", socketId := "sockB", joinedAt := 10,
                   status := "connected" }],
              status := "active" }
     ∧ ((mapGet (joinSession exState "s1" "u1" "sockB" 10 true true).2.activeSessions "s1").map
          (fun s' => (s'.participants.filter (fun p => p.userId == "u1")).length)) =
         some ((exSession.participants.filter (fun p => p.userId == "u1")).length + 1)) :=
  ⟨rfl, c2_joinSession_appends exState "s1" "u1" "sockB" 10 true true exSession rfl⟩

/-- Claim C3, counterexample: with the Redis write-through failing,
`createSession` does **not** complete successfully — the error propagates
to the caller (`storeSession` rethrows and `createSession`'s catch
rethrows again), even though the session was already inserted into the
in-process map. -/
theorem c3_counterexample :
    (createSession initState "s1" "u1" "voice" 5 ["stun:a"] false).1 =
      .error "Failed to store session in Redis"
  ∧ mapGet (createSession initState "s1" "u1" "voice" 5 ["stun:a"] false).2.activeSessions "s1" =
      some { id := "s1", userId := "u1", type := "voice", status := "created",
             createdAt := 5, participants := [], iceConfiguration := ["stun:a"] } :=
  ⟨rfl, rfl⟩

/-- Claim C3 (amended): when the Cache Store write-through fails,
`createSession` raises the cache error to its caller instead of returning
the in-process copy; the session nonetheless remains inserted in the
in-process map (and Redis is untouched). -/
theorem c3_createSession_cache_failure (st : ServiceState) (sid uid ty : String)
    (now : Nat) (ice : List String) :
    (createSession st sid uid ty now ice false).1 =
      .error "Failed to store session in Redis"
  ∧ mapGet (createSession st sid uid ty now ice false).2.activeSessions sid =
      some { id := sid, userId := uid, type := ty, status := "created",
             createdAt := now, participants := [], iceConfiguration := ice }
  ∧ (createSession st sid uid ty now ice false).2.redis = st.redis := by
  refine ⟨rfl, ?_, rfl⟩
  simp only [createSession, storeSession]
  rw [mapGet_mapSet, if_pos rfl]

/-- Claim C9: `generateConferenceTwiML` is pure and deterministic — it
returns the ambient world untouched, and its markup output depends only on
the conference name and options, not on the world. -/
theorem c9_generateConferenceTwiML_pure (conferenceName : String)
    (options : TwimlOptions) (w w' : World) :
    (generateConferenceTwiML conferenceName options w).2 = w ∧
    (generateConferenceTwiML conferenceName options w).1 =
      (generateConferenceTwiML conferenceName options w').1 :=
  ⟨rfl, rfl⟩

/-- Claim C4, counterexample: the authenticated channel of `u2` — who is
**not** a participant of `s1` (second conjunct) — sends an offer for `s1`;
the relay forwards it to the session room and emits no error to the
sender, refuting "responds with an error and forwards nothing". -/
theorem c4_counterexample :
    handleWebrtcOffer exRelay exSock2 "s1" "sdpX" 42 =
      ([.toRoom "session:s1" "webrtc:offer"
          (.offerAnswer { sessionId := "s1", userId := "u2", type := "offer",
                          sdp := "sdpX", timestamp := 42 })], exRelay)
  ∧ exSession.participants.all (fun p => p.userId != "u2") = true :=
  ⟨rfl, rfl⟩

/-- Claim C4 (amended): for offer / answer / candidate the relay validates
only that the session exists in the in-process map — it never checks that
the sender is a participant.  Any authenticated sender's payload for an
existing session is forwarded to the session room, tagged with the
sender's userId and a server timestamp; an error goes back only when the
session is missing. -/
theorem c4_relay_checks_only_session_existence
    (rs : RelayState) (sock : SocketCtx) (uid sessionId sdp candidate sdpMid : String)
    (mline now : Nat) (s : Session)
    (hauth : sock.userId = some uid)
    (hsess : mapGet rs.svc.activeSessions sessionId = some s) :
    handleWebrtcOffer rs sock sessionId sdp now =
      ([.toRoom ("session:" ++ sessionId) "webrtc:offer"
          (.offerAnswer { sessionId := sessionId, userId := uid, type := "offer",
                          sdp := sdp, timestamp := now })], rs)
  ∧ handleWebrtcAnswer rs sock sessionId sdp now =
      ([.toRoom ("session:" ++ sessionId) "webrtc:answer"
          (.offerAnswer { sessionId := sessionId, userId := uid, type := "answer",
                          sdp := sdp, timestamp := now })], rs)
  ∧ handleWebrtcIceCandidate rs sock sessionId candidate mline sdpMid now =
      ([.toRoom ("session:" ++ sessionId) "webrtc:ice-candidate"
          (.ice { sessionId := sessionId, userId := uid, type := "ice-candidate",
                  candidate := candidate, sdpMLineIndex := mline, sdpMid := sdpMid,
                  timestamp := now })], rs) := by
  refine ⟨?_, ?_, ?_⟩ <;>
    simp [handleWebrtcOffer, handleWebrtcAnswer, handleWebrtcIceCandidate,
          createOffer, createAnswer, handleIceCandidate, hauth, hsess]

/-- Witness for C4 (amended): the non-participant `u2` sends an answer for
the existing session `s1` and it is forwarded. -/
theorem c4_relay_checks_only_session_existence_witness :
    exSock2.userId = some "u2"
  ∧ mapGet exRelay.svc.activeSessions "s1" = some exSession
  ∧ handleWebrtcAnswer exRelay exSock2 "s1" "sdpY" 43 =
      ([.toRoom "session:s1" "webrtc:answer"
          (.offerAnswer { sessionId := "s1", userId := "u2", type := "answer",
                          sdp := "sdpY", timestamp := 43 })], exRelay) :=
  ⟨rfl, rfl,
   (c4_relay_checks_only_session_existence exRelay exSock2 "u2" "s1" "sdpY"
      "candX" "mid0" 0 43 exSession rfl rfl).2.1⟩

/-- Claim C5, counterexample: an unauthenticated channel sending
`session:leave` gets **no** error response (the handler bare-returns): the
emission list is empty, refuting "any such attempt is rejected with an
error response" for the `leave` kind.  (No relay action occurs either —
the state is unchanged.) -/
theorem c5_counterexample :
    exSockAnon.userId = none
  ∧ handleSessionLeave initRelay exSockAnon "s1" 7 true true = ([], initRelay) :=
  ⟨rfl, rfl⟩

/-- Claim C5 (amended): a channel without a successful `authenticate` gets
`error: Not authenticated` — with no relay action, no session mutation and
no forwarded payload — for offer, answer, candidate and join; a `leave`
from an unauthenticated channel is ignored silently (no relay action, but
also no error response). -/
theorem c5_unauthenticated_no_relay_action
    (rs : RelayState) (sock : SocketCtx) (sessionId sdp candidate sdpMid : String)
    (mline now : Nat) (getOk storeOk delOk : Bool)
    (hun : sock.userId = none) :
    handleWebrtcOffer rs sock sessionId sdp now =
      ([.toSender "error" (.err "Not authenticated")], rs)
  ∧ handleWebrtcAnswer rs sock sessionId sdp now =
      ([.toSender "error" (.err "Not authenticated")], rs)
  ∧ handleWebrtcIceCandidate rs sock sessionId candidate mline sdpMid now =
      ([.toSender "error" (.err "Not authenticated")], rs)
  ∧ handleSessionJoin rs sock sessionId now getOk storeOk =
      ([.toSender "error" (.err "Not authenticated")], rs)
  ∧ handleSessionLeave rs sock sessionId now storeOk delOk = ([], rs) := by
  refine ⟨?_, ?_, ?_, ?_, ?_⟩ <;>
    simp [handleWebrtcOffer, handleWebrtcAnswer, handleWebrtcIceCandidate,
          handleSessionJoin, handleSessionLeave, hun]

/-- Witness for C5 (amended) on a concrete unauthenticated channel. -/
theorem c5_unauthenticated_no_relay_action_witness :
    exSockAnon.userId = none
  ∧ (handleWebrtcOffer initRelay exSockAnon "s1" "sdp0" 7 =
       ([.toSender "error" (.err "Not authenticated")], initRelay)
     ∧ handleWebrtcAnswer initRelay exSockAnon "s1" "sdp0" 7 =
       ([.toSender "error" (.err "Not authenticated")], initRelay)
     ∧ handleWebrtcIceCandidate initRelay exSockAnon "s1" "cand0" 0 "mid0" 7 =
       ([.toSender "error" (.err "Not authenticated")], initRelay)
     ∧ handleSessionJoin initRelay exSockAnon "s1" 7 true true =
       ([.toSender "error" (.err "Not authenticated")], initRelay)
     ∧ handleSessionLeave initRelay exSockAnon "s1" 7 true true = ([], initRelay)) :=
  ⟨rfl, c5_unauthenticated_no_relay_action initRelay exSockAnon "s1" "sdp0"
     "cand0" "mid0" 0 7 true true true rfl⟩

/-- Claim C6: when `leaveSession` drains the last matching participant the
session is returned in status `ended` and removed from the in-process map
and from Redis (the Redis delete succeeding), and a repeat call finds no
session — so draining a session yields exactly one `ended` return and
leaves no entry in either tier; when participants remain, the shrunk
session is written through and returned, still present in both tiers. -/
theorem c6_leaveSession_terminal (st : ServiceState) (sid uid : String) (s : Session)
    (h : mapGet st.activeSessions sid = some s) :
    ((s.participants.filter (fun p => p.userId != uid)).length = 0 →
       (leaveSession st sid uid true true).1 =
         .ok { s with
               participants := s.participants.filter (fun p => p.userId != uid),
               status := "ended" }
       ∧ mapGet (leaveSession st sid uid true true).2.activeSessions sid = none
       ∧ mapGet (leaveSession st sid uid true true).2.redis (redisKey sid) = none
       ∧ (leaveSession (leaveSession st sid uid true true).2 sid uid true true).1 =
           .error "Session not found")
  ∧ ((s.participants.filter (fun p => p.userId != uid)).length ≠ 0 →
       (leaveSession st sid uid true true).1 =
         .ok { s with participants := s.participants.filter (fun p => p.userId != uid) }
       ∧ mapGet (leaveSession st sid uid true true).2.activeSessions sid =
           some { s with participants := s.participants.filter (fun p => p.userId != uid) }
       ∧ mapGet (leaveSession st sid uid true true).2.redis (redisKey sid) =
           some { s with participants := s.participants.filter (fun p => p.userId != uid) }) := by
  constructor
  · intro hempty
    have hmap : mapGet (leaveSession st sid uid true true).2.activeSessions sid = none := by
      simp only [leaveSession, h, if_pos hempty, deleteSession]
      rw [mapGet_mapDelete, if_pos rfl]
    refine ⟨?_, hmap, ?_, ?_⟩
    · simp only [leaveSession, h, if_pos hempty]
    · simp only [leaveSession, h, if_pos hempty, deleteSession]
      rw [mapGet_mapDelete, if_pos rfl]
    · exact leaveSession_not_found _ sid uid true true hmap
  · intro hne
    refine ⟨?_, ?_, ?_⟩
    · simp only [leaveSession, h, if_neg hne, storeSession]
    · simp only [leaveSession, h, if_neg hne, storeSession]
      rw [mapGet_mapSet, if_pos rfl]
    · simp only [leaveSession, h, if_neg hne, storeSession]
      rw [mapGet_mapSet, if_pos rfl]

/-- Witness for C6: draining the only participant of the concrete state
deletes the session from both tiers and a repeat call errors. -/
theorem c6_leaveSession_terminal_witness :
    mapGet exState.activeSessions "s1" = some exSession
  ∧ (exSession.participants.filter (fun p => p.userId != "u1")).length = 0
  ∧ ((leaveSession exState "s1" "u1" true true).1 =
       .ok { exSession with
             participants := exSession.participants.filter (fun p => p.userId != "u1"),
             status := "ended" }
     ∧ mapGet (leaveSession exState "s1" "u1" true true).2.activeSessions "s1" = none
     ∧ mapGet (leaveSession exState "s1" "u1" true true).2.redis (redisKey "s1") = none
     ∧ (leaveSession (leaveSession exState "s1" "u1" true true).2 "s1" "u1" true true).1 =
         .error "Session not found") :=
  ⟨rfl, rfl, (c6_leaveSession_terminal exState "s1" "u1" exSession rfl).1 rfl⟩

/-- Claim C10: removing an absent `userId` from a session with a
non-empty participant list is a persisted no-op: `leaveSession` succeeds
returning the session unchanged (every field), the in-process map is
pointwise unchanged, and the session remains persisted in Redis. -/
theorem c10_leaveSession_absent_noop (st : ServiceState) (sid uid : String)
    (s : Session)
    (h : mapGet st.activeSessions sid = some s)
    (hne : s.participants ≠ [])
    (habs : ∀ p ∈ s.participants, p.userId ≠ uid) :
    (leaveSession st sid uid true true).1 = .ok s
  ∧ (∀ k, mapGet (leaveSession st sid uid true true).2.activeSessions k =
       mapGet st.activeSessions k)
  ∧ mapGet (leaveSession st sid uid true true).2.redis (redisKey sid) = some s := by
  have hfilter : s.participants.filter (fun p => p.userId != uid) = s.participants :=
    filter_userId_ne_eq_self habs
  have hlen : ¬ (s.participants.filter (fun p => p.userId != uid)).length = 0 := by
    rw [hfilter]
    simpa [List.length_eq_zero] using hne
  have hsession :
      ({ s with participants := s.participants.filter (fun p => p.userId != uid) } : Session) = s := by
    rw [hfilter]
  refine ⟨?_, ?_, ?_⟩
  · simp only [leaveSession, h, if_neg hlen, storeSession]
    rw [hsession]
  · intro k
    simp only [leaveSession, h, if_neg hlen, storeSession]
    rw [hsession, mapGet_mapSet]
    by_cases hk : sid = k
    · subst hk
      rw [if_pos rfl, h]
    · rw [if_neg hk]
  · simp only [leaveSession, h, if_neg hlen, storeSession]
    rw [hsession, mapGet_mapSet, if_pos rfl]

/-- Witness for C10: removing the absent user `u9` from the concrete
one-participant state changes nothing and returns the session. -/
theorem c10_leaveSession_absent_noop_witness :
    mapGet exState.activeSessions "s1" = some exSession
  ∧ exSession.participants ≠ []
  ∧ (∀ p ∈ exSession.participants, p.userId ≠ "u9")
  ∧ ((leaveSession exState "s1" "u9" true true).1 = .ok exSession
     ∧ (∀ k, mapGet (leaveSession exState "s1" "u9" true true).2.activeSessions k =
         mapGet exState.activeSessions k)
     ∧ mapGet (leaveSession exState "s1" "u9" true true).2.redis (redisKey "s1") =
         some exSession) :=
  ⟨rfl, by decide, by decide,
   c10_leaveSession_absent_noop exState "s1" "u9" exSession rfl (by decide) (by decide)⟩

/-- Claim C8: the expiry sweep deletes from the in-process map, and (with
the Redis deletes succeeding) from Redis, exactly the sessions whose
`createdAt` is strictly older than the one-hour time-to-live — regardless
of their participant count — and returns every younger session in the map
unchanged. -/
theorem c8_cleanup_ttl (st : ServiceState) (now : Nat) (delOk : String → Bool)
    (sid : String) (s : Session)
    (hnd : keysNodup st.activeSessions)
    (hdel : ∀ x, delOk x = true)
    (h : mapGet st.activeSessions sid = some s) :
    (s.createdAt < now - 3600000 →
       mapGet (cleanupExpiredSessions st now delOk).activeSessions sid = none
       ∧ mapGet (cleanupExpiredSessions st now delOk).redis (redisKey sid) = none)
  ∧ (¬ s.createdAt < now - 3600000 →
       mapGet (cleanupExpiredSessions st now delOk).activeSessions sid = some s) := by
  constructor
  · intro hexp
    constructor
    · simp only [cleanupExpiredSessions]
      rw [mapGet_filter hnd]
      simp [h]
      omega
    · simp only [cleanupExpiredSessions]
      apply foldl_delete_mem_none delOk _ _ sid (hdel sid)
      have hmem : (sid, s) ∈ st.activeSessions := mapGet_mem h
      have hmemf : (sid, s) ∈ st.activeSessions.filter
          (fun p => decide (p.2.createdAt < now - 3600000)) :=
        List.mem_filter.mpr ⟨hmem, by simpa using hexp⟩
      exact List.mem_map_of_mem _ hmemf
  · intro hexp
    simp only [cleanupExpiredSessions]
    rw [mapGet_filter hnd]
    simp [h]
    omega

/-- Witness for C8: the sweep at `now` = two hours deletes the two-hour
old, zero-participant session from both tiers. -/
theorem c8_cleanup_ttl_witness :
    oldSession.createdAt < 7200000 - 3600000
  ∧ oldSession.participants = []
  ∧ (mapGet (cleanupExpiredSessions exStateOld 7200000 (fun _ => true)).activeSessions "s1" = none
     ∧ mapGet (cleanupExpiredSessions exStateOld 7200000 (fun _ => true)).redis (redisKey "s1") = none) :=
  ⟨by decide, rfl,
   (c8_cleanup_ttl exStateOld 7200000 (fun _ => true) "s1" oldSession
      (by decide) (fun _ => rfl) rfl).1 (by decide)⟩

/-- Claim C7, counterexample: the no-resurrection claim fails when a
Redis delete error is silently swallowed.  Starting from create + join of
`u1`, a `leaveSession` whose Redis delete fails returns the session as
`ended` (first conjunct) — yet a later `joinSession` by `u2` reloads the
stale Redis copy and the very same session id is observed `active` in the
in-process map again (second conjunct). -/
theorem c7_counterexample :
    ((leaveSession trB.st "s1" "u1" true false).1.toOption.map Session.status =
      some "ended")
  ∧ ((mapGet (applyEv trX (.join "s1" "u2" "sockB" 2 true true)).st.activeSessions
        "s1").map Session.status = some "active") :=
  ⟨rfl, rfl⟩

/-- Claim C7 (amended): over every reachable sequence of Session Store
operations in which session ids are never reused and the Cache Store
delete calls succeed, (1) no session present in either tier is in status
`ended` with a non-empty participant list (indeed never in status `ended`
at all), and (2) once an id has been observed `ended` by `leaveSession`,
it is absent from both tiers at every later point — in particular it is
never observed `active` again.  Without the delete-success assumption the
original claim fails (see the counterexample): a swallowed Redis delete
failure permits resurrection. -/
theorem c7_monotonic_terminal (t t' : TraceState) (sid : String) (s : Session)
    (h0 : Relation.ReflTransGen GoodStep initTrace t)
    (h1 : Relation.ReflTransGen GoodStep t t') :
    (mapGet t'.st.activeSessions sid = some s ∨
       mapGet t'.st.redis (redisKey sid) = some s →
       ¬ (s.status = "ended" ∧ s.participants ≠ []))
  ∧ (sid ∈ t.endedIds →
       mapGet t'.st.activeSessions sid = none ∧
       mapGet t'.st.redis (redisKey sid) = none) := by
  have hinv : Inv t' := inv_of_steps (h0.trans h1) inv_initTrace
  constructor
  · rintro (hm | hr) ⟨hstat, _⟩
    · exact hinv.activeNotEnded sid s hm hstat
    · exact hinv.redisNotEnded _ s hr hstat
  · intro hend
    exact hinv.endedGone sid (endedIds_mono h1 sid hend)

/-- Witness for C7 (amended) on the concrete trace create → join `u1` →
leave `u1` (all Redis calls succeeding): `s1` has been observed `ended`
and is gone from both tiers. -/
theorem c7_monotonic_terminal_witness :
    "s1" ∈ trC.endedIds
  ∧ (mapGet trC.st.activeSessions "s1" = none ∧
     mapGet trC.st.redis (redisKey "s1") = none) := by
  have g1 : GoodStep initTrace trA :=
    GoodStep.mk initTrace (.create "s1" "u1" "voice" 0 [] true) (by simp [FreshEv, initTrace]) trivial
  have g2 : GoodStep trA trB :=
    GoodStep.mk trA (.join "s1" "u1" "sockA" 1 true true) trivial trivial
  have g3 : GoodStep trB trC :=
    GoodStep.mk trB (.leave "s1" "u1" true true) trivial rfl
  have chain : Relation.ReflTransGen GoodStep initTrace trC :=
    Relation.ReflTransGen.tail
      (Relation.ReflTransGen.tail (Relation.ReflTransGen.single g1) g2) g3
  exact ⟨by decide,
    (c7_monotonic_terminal trC trC "s1" exSession chain Relation.ReflTransGen.refl).2
      (by decide)⟩
